import Mathlib

/-!
# effective_transformer: the TensorFlow GPU operations of `tf_op/bert_transformer_op.cu.cc`

A shallow embedding of the host code of the three operation functors
(`BertTransformerInputOpFunctor`, `BertTransformerOpFunctor`,
`BertTransformerOutputOpFunctor`) and of the XLA custom call `compressBertInput`.

Conventions of the embedding.

* A C++ `int` is an `Int`; the arithmetic is exact, so every statement is about
  configurations whose products stay inside the `int` range (signed overflow has
  no defined behaviour in C++).
* A device buffer is a total function from the element offset (relative to the
  base pointer) to the element stored there.  Tensor elements are an abstract
  type `α` with a zero (the all-zero bit pattern written by `cudaMemsetAsync`).
* Every runtime call is recorded as a `Cmd` in the order in which the host
  issues it.  Whether a call succeeds is not decided by the host code; it is
  supplied by an `Env`.
-/

namespace EffectiveTransformer

/-! ## Configuration and precision -/

/-- The fields of `TransformerParam` read by the functors (`t_param.batch_size_`, ...). -/
structure TransformerParam where
  batch_size_ : Int
  head_num_ : Int
  from_seq_len_ : Int
  size_per_head_ : Int
  deriving DecidableEq, Repr

/-- The two instantiations of the functors: `float` (`OperationType::FP32`) and
`Eigen::half` (`OperationType::HALF`). -/
inductive OperationType where
  | FP32
  | HALF
  deriving DecidableEq, Repr

/-- Modelled from the spec: `TransformerTFTraits<T>::DataType` is declared in
the header `bert_transformer_op.h`, outside the file embedded here; the two precision
modes use 4-byte (full precision) and 2-byte (reduced precision) elements.
This is `sizeof(DataType_)`. -/
def sizeofDataType : OperationType → Int
  | .FP32 => 4
  | .HALF => 2

/-- TensorFlow element types handed to `allocate_temp`. -/
inductive DType where
  | DT_UINT8
  | DT_INT32
  deriving DecidableEq, Repr

/-- Size in bytes of one element of a TensorFlow element type. -/
def DType.bytes : DType → Int
  | .DT_UINT8 => 1
  | .DT_INT32 => 4

/-! ## Workspace layout of `BertTransformerOpFunctor::Compute` (lines 144-171) -/

/-- Source: `int input_tensor_size = batch_size * head_num * from_seq_len * size_per_head;` -/
def input_tensor_size (t : TransformerParam) : Int :=
  t.batch_size_ * t.head_num_ * t.from_seq_len_ * t.size_per_head_

/-- Source: `int attn_tensor_size = batch_size * head_num * from_seq_len * from_seq_len;` -/
def attn_tensor_size (t : TransformerParam) : Int :=
  t.batch_size_ * t.head_num_ * t.from_seq_len_ * t.from_seq_len_

/-- Source: `long long int buf_size = input_tensor_size * 13 + attn_tensor_size;` -/
def buf_size (t : TransformerParam) : Int :=
  input_tensor_size t * 13 + attn_tensor_size t

/-- The element type of the workspace allocation:
`context->allocate_temp(DT_UINT8, TensorShape{buf_size}, &buf_tensor)`. -/
def workspaceDType : DType := .DT_UINT8

/-- Number of bytes obtained from `allocate_temp(DT_UINT8, TensorShape{buf_size}, ..)`. -/
def workspaceBytes (t : TransformerParam) : Int :=
  buf_size t * workspaceDType.bytes

/-- Source: `query_buf_ = buf + 0 * input_tensor_size` (offset in `DataType_` elements). -/
def query_buf_ (t : TransformerParam) : Int := 0 * input_tensor_size t
/-- Source: `key_buf_ = buf + 1 * input_tensor_size`. -/
def key_buf_ (t : TransformerParam) : Int := 1 * input_tensor_size t
/-- Source: `value_buf_ = buf + 2 * input_tensor_size`. -/
def value_buf_ (t : TransformerParam) : Int := 2 * input_tensor_size t
/-- Source: `query_ = buf + 3 * input_tensor_size`. -/
def query_ (t : TransformerParam) : Int := 3 * input_tensor_size t
/-- Source: `key_ = buf + 4 * input_tensor_size`. -/
def key_ (t : TransformerParam) : Int := 4 * input_tensor_size t
/-- Source: `value_ = buf + 5 * input_tensor_size`. -/
def value_ (t : TransformerParam) : Int := 5 * input_tensor_size t
/-- Source: `qk_buf_ = buf + 0 * input_tensor_size`. -/
def qk_buf_ (t : TransformerParam) : Int := 0 * input_tensor_size t
/-- Source: `transpose_dst_ = buf + std::max(attn_tensor_size, input_tensor_size)`. -/
def transpose_dst_ (t : TransformerParam) : Int :=
  max (attn_tensor_size t) (input_tensor_size t)
/-- Source: `attr_out_buf_ = buf + 0 * input_tensor_size`. -/
def attr_out_buf_ (t : TransformerParam) : Int := 0 * input_tensor_size t
/-- Source: `attr_matmul_buf_ = buf + 1 * input_tensor_size`. -/
def attr_matmul_buf_ (t : TransformerParam) : Int := 1 * input_tensor_size t
/-- Source: `inter_matmul_buf_ = buf + 2 * input_tensor_size`. -/
def inter_matmul_buf_ (t : TransformerParam) : Int := 2 * input_tensor_size t

/-- A range of workspace elements `[off, off + len)`, in `DataType_` elements from `buf`. -/
structure Region where
  off : Int
  len : Int
  deriving DecidableEq, Repr

/-- One past the last element of the region. -/
def Region.stop (r : Region) : Int := r.off + r.len

/-- Element `k` lies in the region. -/
def Region.contains (r : Region) (k : Int) : Prop := r.off ≤ k ∧ k < r.stop

/-- Two regions share an element (decidable form: the larger start is below the
smaller end). -/
def Region.overlaps (r₁ r₂ : Region) : Prop :=
  max r₁.off r₂.off < min r₁.stop r₂.stop

instance (r₁ r₂ : Region) : Decidable (r₁.overlaps r₂) := by
  unfold Region.overlaps; infer_instance

/-- Two regions share no element. -/
def Region.disjoint (r₁ r₂ : Region) : Prop := ¬ r₁.overlaps r₂

instance (r₁ r₂ : Region) : Decidable (r₁.disjoint r₂) := by
  unfold Region.disjoint; infer_instance

/-- End of the region in bytes from the start of the allocation, for element size `sz`. -/
def Region.stopBytes (sz : Int) (r : Region) : Int := r.stop * sz

/-- The projection outputs `query_buf_`, `key_buf_`, `value_buf_` (GEMM results of lines
185-216), each given `input_tensor_size` elements by the layout. -/
def query_buf_region (t : TransformerParam) : Region := ⟨query_buf_ t, input_tensor_size t⟩
/-- See `query_buf_region`. -/
def key_buf_region (t : TransformerParam) : Region := ⟨key_buf_ t, input_tensor_size t⟩
/-- See `query_buf_region`. -/
def value_buf_region (t : TransformerParam) : Region := ⟨value_buf_ t, input_tensor_size t⟩
/-- The padded `query_` block `[batch, head, seq, size_per_head]` (zeroed at line 221, written
by `add_QKV_bias_padding`, read by the batched GEMM of line 235 with stride
`from_seq_len * size_per_head` and `batch_size * head_num` batches). -/
def query_region (t : TransformerParam) : Region := ⟨query_ t, input_tensor_size t⟩
/-- The padded `key_` block, see `query_region`. -/
def key_region (t : TransformerParam) : Region := ⟨key_ t, input_tensor_size t⟩
/-- The padded `value_` block (read by the batched GEMM of line 251). -/
def value_region (t : TransformerParam) : Region := ⟨value_ t, input_tensor_size t⟩
/-- The range zeroed by `cudaMemsetAsync(query_, 0, 3 * input_tensor_size * sizeof(DataType_))`. -/
def memset_qkv_region (t : TransformerParam) : Region := ⟨query_ t, 3 * input_tensor_size t⟩
/-- The attention scores `qk_buf_`: `batch_size * head_num` blocks of stride
`from_seq_len * from_seq_len` (written at line 235, read at line 251). -/
def qk_buf_region (t : TransformerParam) : Region := ⟨qk_buf_ t, attn_tensor_size t⟩
/-- The attention output `transpose_dst_`: `batch_size * head_num` blocks of stride
`from_seq_len * size_per_head` (written at line 251, read by `transpose_rm_padding`). -/
def transpose_dst_region (t : TransformerParam) : Region :=
  ⟨transpose_dst_ t, input_tensor_size t⟩
/-- The dense attention output `attr_out_buf_`: `valid_word_num` rows of
`head_num * size_per_head` elements (written by `transpose_rm_padding`, read at line 275). -/
def attr_out_buf_region (t : TransformerParam) (valid_word_num : Int) : Region :=
  ⟨attr_out_buf_ t, valid_word_num * (t.head_num_ * t.size_per_head_)⟩
/-- The output projection `attr_matmul_buf_`: an `m × n` GEMM result with
`m = valid_word_num`, `n = head_num * size_per_head` (line 275). -/
def attr_matmul_buf_region (t : TransformerParam) (valid_word_num : Int) : Region :=
  ⟨attr_matmul_buf_ t, valid_word_num * (t.head_num_ * t.size_per_head_)⟩
/-- The feed-forward intermediate `inter_matmul_buf_`: an `m × n` GEMM result with
`m = valid_word_num`, `n = 4 * head_num * size_per_head` (lines 290-300). -/
def inter_matmul_buf_region (t : TransformerParam) (valid_word_num : Int) : Region :=
  ⟨inter_matmul_buf_ t, valid_word_num * (4 * (t.head_num_ * t.size_per_head_))⟩

/-- Every region of the workspace that the layer addresses. -/
def workspaceRegions (t : TransformerParam) (valid_word_num : Int) : List Region :=
  [query_buf_region t, key_buf_region t, value_buf_region t,
   query_region t, key_region t, value_region t, memset_qkv_region t,
   qk_buf_region t, transpose_dst_region t,
   attr_out_buf_region t valid_word_num, attr_matmul_buf_region t valid_word_num,
   inter_matmul_buf_region t valid_word_num]

/-- The allocation holds the region when the region's end, in bytes, is within
the bytes allocated. -/
def fitsWorkspace (op : OperationType) (t : TransformerParam) (r : Region) : Prop :=
  r.stopBytes (sizeofDataType op) ≤ workspaceBytes t

instance (op : OperationType) (t : TransformerParam) (r : Region) :
    Decidable (fitsWorkspace op t r) := by
  unfold fitsWorkspace; infer_instance

/-! ## Runtime calls, their outcomes, and the trace of an invocation -/

/-- Tensors handed to the functors through their `param` structures. -/
inductive ParamBuf where
  | from_tensor | to_tensor | attr_mask | batch_idx | word_idx | valid_word_num
  | attr_kernel_Q | attr_kernel_K | attr_kernel_V
  | attr_bias_Q | attr_bias_K | attr_bias_V
  | attr_output_kernel | attr_output_bias
  | attr_output_layernorm_gamma | attr_output_layernorm_beta
  | inter_kernel | inter_bias | output_kernel | output_bias
  | output_layernorm_gamma | output_layernorm_beta | transformer_out | mask | prefix_sum
  deriving DecidableEq, Repr

/-- Host variables that are the target or source of a copy. -/
inductive HostVar where
  | valid_word_num
  | last_mask
  deriving DecidableEq, Repr

/-- A pointer operand of a runtime call. -/
inductive Ptr where
  /-- Pointer `buf + off`: an offset into the encoder workspace, in `DataType_` elements. -/
  | buf (off : Int)
  /-- Pointer `prefix_sum_buf_ + off`: an offset into the temporary of the input functor. -/
  | temp (off : Int)
  /-- A caller tensor plus an element offset. -/
  | param (p : ParamBuf) (off : Int)
  /-- The address of a host variable. -/
  | host (v : HostVar)
  deriving DecidableEq, Repr

/-- Direction of a `cudaMemcpyAsync`. -/
inductive MemcpyKind where
  | cudaMemcpyDeviceToHost
  | cudaMemcpyHostToDevice
  deriving DecidableEq, Repr

/-- Either `CUBLAS_OP_N` or `CUBLAS_OP_T`. -/
inductive CublasOp where
  | CUBLAS_OP_N
  | CUBLAS_OP_T
  deriving DecidableEq, Repr

/-- The kernel launchers called by the host code (declared in `cuda/cuda_kernels.h` and
`cuda/attention.h`). -/
inductive Kernel where
  | exclusiveScan
  | compressBertInput
  | restoreBertOutput
  | add_QKV_bias_padding
  | softmax_kernel
  | transpose_rm_padding
  | add_bias_input_layernorm
  | add_bias_act
  deriving DecidableEq, Repr

/-- One call issued by the host, with the arguments that matter for sizes and addresses. -/
inductive Cmd where
  | cublasSetStream
  | allocate_temp (dtype : DType) (count : Int)
  | cudaMemcpyAsync (dst src : Ptr) (bytes : Int) (kind : MemcpyKind)
  | cudaStreamSynchronize
  | cudaMemsetAsync (dst : Ptr) (value : Int) (bytes : Int)
  | cublasGemmEx (transa transb : CublasOp) (m n k : Int)
      (A : Ptr) (lda : Int) (B : Ptr) (ldb : Int) (C : Ptr) (ldc : Int)
      (computeType : OperationType) (algo : Int)
  | cublasGemmStridedBatchedEx (transa transb : CublasOp) (m n k : Int)
      (A : Ptr) (lda strideA : Int) (B : Ptr) (ldb strideB : Int)
      (C : Ptr) (ldc strideC : Int) (batchCount : Int)
      (computeType : OperationType) (algo : Int)
  | launch (kernel : Kernel) (ptrs : List Ptr) (dims : List Int)
  deriving DecidableEq, Repr

/-- The matmuls, zero fills and kernel launches: every call that makes the device compute. -/
def Cmd.isCompute : Cmd → Bool
  | .cudaMemsetAsync .. => true
  | .cublasGemmEx .. => true
  | .cublasGemmStridedBatchedEx .. => true
  | .launch .. => true
  | _ => false

/-- The synchronous stream barrier. -/
def Cmd.isBarrier : Cmd → Bool
  | .cudaStreamSynchronize => true
  | _ => false

/-- The copy of the device scalar `param.valid_word_num` into the host variable
`valid_word_num` (lines 175-176 and 426-427). -/
def readbackValidWordNum : Cmd :=
  .cudaMemcpyAsync (.host .valid_word_num) (.param .valid_word_num 0) 4
    .cudaMemcpyDeviceToHost

/-- The type `tensorflow::Status`, as far as the functors produce it. -/
inductive Status where
  | OK
  | Internal (what : String)
  deriving DecidableEq, Repr

/-- What the surroundings decide for one invocation: whether the call issued at position
`i` of the invocation succeeds, the text carried by the `std::runtime_error` of a failed
checked call, whether the data pointer of the temporary tensor is null, and the
(uninitialised) contents of that temporary. -/
structure Env where
  ok : Nat → Bool
  what : String
  tempNull : Bool
  temp : Int → Int

/-- Every call succeeds. -/
def Env.allOk : Env := ⟨fun _ => true, "", false, fun _ => 0⟩

/-- The call issued at position `i` fails and every other call succeeds; a failed
allocation leaves a null data pointer. -/
def Env.failsAt (i : Nat) : Env := ⟨fun j => j != i, "call failed", true, fun _ => 0⟩

/-- How the host treats the result of a call. -/
inductive Step where
  /-- Modelled from the spec: `check_cuda_error(call)` comes from the header `common.h`,
  outside the file embedded here; a failed call raises a `std::runtime_error` (the source's
  exception-based error flow), which the functor's `catch` turns into `errors::Internal`. -/
  | check (c : Cmd)
  /-- A call whose result is not inspected: a kernel launcher returning `void`, or a
  status that is stored and never tested. -/
  | call (c : Cmd)
  deriving DecidableEq, Repr

/-- The call of a step. -/
def Step.cmd : Step → Cmd
  | .check c => c
  | .call c => c

/-- Issue the steps in order, starting at position `i`; the first failing checked call ends
the run inside the `try` block and the `catch` clause returns `errors::Internal(error.what())`.
The result is the calls issued, in order, and the status returned. -/
def runSteps (env : Env) : Nat → List Step → List Cmd × Status
  | _, [] => ([], .OK)
  | i, .call c :: rest => (c :: (runSteps env (i + 1) rest).1, (runSteps env (i + 1) rest).2)
  | i, .check c :: rest =>
    if env.ok i then (c :: (runSteps env (i + 1) rest).1, (runSteps env (i + 1) rest).2)
    else ([c], .Internal env.what)

/-! ## `BertTransformerOpFunctor::Compute` (lines 112-334) -/

namespace BertTransformerOpFunctor

/-- The array entry `cublasAlgo[i]`: `-1` in `FP32`, `99` otherwise, for all three entries. -/
def cublasAlgo (op : OperationType) (_i : Nat) : Int :=
  match op with
  | .FP32 => -1
  | .HALF => 99

/-- The calls of `Compute`, in program order, for element type `op`, configuration `t`, and
the host value `valid_word_num` (the value of `*param.valid_word_num`, which the copy of
lines 175-176 places in the host variable; the host issues no barrier before using it, so
this is the value in the most favourable case, a copy that has completed when
`cudaMemcpyAsync` returns). -/
def steps (op : OperationType) (t : TransformerParam) (valid_word_num : Int) : List Step :=
  let batch_size := t.batch_size_
  let head_num := t.head_num_
  let from_seq_len := t.from_seq_len_
  let size_per_head := t.size_per_head_
  let sz := sizeofDataType op
  -- 5. input -> Q K V
  let m := valid_word_num
  let k := t.head_num_ * t.size_per_head_
  let n := k
  -- 7. matmat & layer norm
  let n4 := n * 4
  let k4 := k * 4
  [ .check .cublasSetStream,
    -- 2. allocate buffer for transformer: `status` is not read again
    .call (.allocate_temp workspaceDType (buf_size t)),
    -- 4. get valid word num
    .check readbackValidWordNum,
    .check (.cublasGemmEx .CUBLAS_OP_N .CUBLAS_OP_N n m k
      (.param .attr_kernel_Q 0) n (.param .from_tensor 0) k (.buf (query_buf_ t)) n
      op (cublasAlgo op 0)),
    .check (.cublasGemmEx .CUBLAS_OP_N .CUBLAS_OP_N n m k
      (.param .attr_kernel_K 0) n (.param .to_tensor 0) k (.buf (key_buf_ t)) n
      op (cublasAlgo op 0)),
    .check (.cublasGemmEx .CUBLAS_OP_N .CUBLAS_OP_N n m k
      (.param .attr_kernel_V 0) n (.param .to_tensor 0) k (.buf (value_buf_ t)) n
      op (cublasAlgo op 0)),
    .check (.cudaMemsetAsync (.buf (query_ t)) 0 (3 * input_tensor_size t * sz)),
    .call (.launch .add_QKV_bias_padding
      [.buf (query_buf_ t), .param .attr_bias_Q 0, .buf (key_buf_ t), .param .attr_bias_K 0,
       .buf (value_buf_ t), .param .attr_bias_V 0, .buf (query_ t), .buf (key_ t),
       .buf (value_ t), .param .batch_idx 0, .param .word_idx 0]
      [valid_word_num, batch_size, from_seq_len, head_num, size_per_head]),
    -- 6. self-attention
    .check (.cublasGemmStridedBatchedEx .CUBLAS_OP_T .CUBLAS_OP_N
      from_seq_len from_seq_len size_per_head
      (.buf (key_ t)) size_per_head (from_seq_len * size_per_head)
      (.buf (query_ t)) size_per_head (from_seq_len * size_per_head)
      (.buf (qk_buf_ t)) from_seq_len (from_seq_len * from_seq_len)
      (batch_size * head_num) op (cublasAlgo op 1)),
    .call (.launch .softmax_kernel [.buf (qk_buf_ t), .param .attr_mask 0]
      [batch_size, head_num, from_seq_len]),
    .check (.cublasGemmStridedBatchedEx .CUBLAS_OP_N .CUBLAS_OP_N
      size_per_head from_seq_len from_seq_len
      (.buf (value_ t)) size_per_head (from_seq_len * size_per_head)
      (.buf (qk_buf_ t)) from_seq_len (from_seq_len * from_seq_len)
      (.buf (transpose_dst_ t)) size_per_head (from_seq_len * size_per_head)
      (batch_size * head_num) op (cublasAlgo op 2)),
    .call (.launch .transpose_rm_padding
      [.buf (transpose_dst_ t), .buf (attr_out_buf_ t), .param .batch_idx 0,
       .param .word_idx 0]
      [valid_word_num, batch_size, from_seq_len, head_num, size_per_head]),
    -- 7. matmat & layer norm
    .check (.cublasGemmEx .CUBLAS_OP_N .CUBLAS_OP_N n m k
      (.param .attr_output_kernel 0) n (.buf (attr_out_buf_ t)) k (.buf (attr_matmul_buf_ t)) n
      op (cublasAlgo op 0)),
    .call (.launch .add_bias_input_layernorm
      [.buf (attr_matmul_buf_ t), .param .from_tensor 0, .param .attr_output_bias 0,
       .param .attr_output_layernorm_gamma 0, .param .attr_output_layernorm_beta 0]
      [m, n]),
    .check (.cublasGemmEx .CUBLAS_OP_N .CUBLAS_OP_N n4 m k
      (.param .inter_kernel 0) n4 (.buf (attr_matmul_buf_ t)) k (.buf (inter_matmul_buf_ t)) n4
      op (cublasAlgo op 1)),
    .call (.launch .add_bias_act [.buf (inter_matmul_buf_ t), .param .inter_bias 0] [m, n4]),
    .check (.cublasGemmEx .CUBLAS_OP_N .CUBLAS_OP_N n m k4
      (.param .output_kernel 0) n (.buf (inter_matmul_buf_ t)) k4 (.param .transformer_out 0) n
      op (cublasAlgo op 2)),
    .call (.launch .add_bias_input_layernorm
      [.param .transformer_out 0, .buf (attr_matmul_buf_ t), .param .output_bias 0,
       .param .output_layernorm_gamma 0, .param .output_layernorm_beta 0]
      [m, n]) ]

/-- The calls issued by one invocation of `Compute` and the status it returns. -/
def Compute (env : Env) (op : OperationType) (t : TransformerParam) (valid_word_num : Int) :
    List Cmd × Status :=
  runSteps env 0 (steps op t valid_word_num)

end BertTransformerOpFunctor

/-! ## Mask compaction: the quantities of the specification -/

/-- The exclusive prefix sum of the specification: element `i` is the sum of the mask
entries strictly before flattened index `i`. -/
def exclusivePrefixSum (mask : Int → Int) : Nat → Int
  | 0 => 0
  | i + 1 => exclusivePrefixSum mask i + mask i

/-- The number `k` of ones among the first `n` mask entries. -/
def countOnes (mask : Int → Int) : Nat → Nat
  | 0 => 0
  | i + 1 => countOnes mask i + (if mask i = 1 then 1 else 0)

/-- The mask has entries in `{0, 1}` on its `n` flattened positions. -/
def isZeroOneMask (mask : Int → Int) (n : Nat) : Prop :=
  ∀ i : Nat, i < n → mask i = 0 ∨ mask i = 1

/-- The buffer holds the exclusive prefix sum of the mask on its first `n` entries. -/
def isExclusivePrefixSum (prefix_sum mask : Int → Int) (n : Nat) : Prop :=
  ∀ i : Nat, i < n → prefix_sum i = exclusivePrefixSum mask i

/-! ## Kernel launchers -/

/-- The three output buffers of the input compactor. -/
structure CompactBuffers (α : Type) where
  to_tensor : Int → α
  batch_idx : Int → Int
  word_idx : Int → Int

/-- The kernel launchers used by the input and output functors.  They are declared in
`cuda/cuda_kernels.h` and defined in a `.cu` file, both outside the file embedded here, so
the host code is embedded over an arbitrary implementation of them, each mapping the
buffers it is given to the buffers after the launch. -/
structure KernelLaunchers (α : Type) where
  /-- Launcher `exclusiveScan_kernelLauncher(d_Out, d_In, length, stream)`: the new
  `d_Out`. -/
  exclusiveScan : (d_Out d_In : Int → Int) → (length : Int) → (Int → Int)
  /-- Launcher `compressBertInput_kernelLauncher(from_tensor, mask, prefix_sum, to_tensor,
  batch_idx, word_idx, batch_size, seq_len, hidden_dim, stream)`: the new output buffers. -/
  compressBertInput : (from_tensor : Int → α) → (mask prefix_sum : Int → Int) →
    (out : CompactBuffers α) → (batch_size seq_len hidden_dim : Int) → CompactBuffers α
  /-- Launcher `restoreBertOutput_kernelLauncher(to_tensor, from_tensor, batch_idx, word_idx,
  valid_word_num, seq_len, hidden_dim, stream)`: the new `to_tensor`. -/
  restoreBertOutput : (to_tensor from_tensor : Int → α) → (batch_idx word_idx : Int → Int) →
    (valid_word_num seq_len hidden_dim : Int) → (Int → α)

/-- Modelled from the spec: `exclusiveScan_kernelLauncher` (defined in the CUDA kernel file,
outside the file embedded here).  Mask Compactor: "exclusive prefix sum over the 0/1 mask";
`PrefixSum[i]` is the sum of the entries strictly before flattened index `i` (for a 0/1 mask
the count of mask-ones), for the `length` entries of the mask; entries of the output buffer
beyond `length` are not written. -/
def exclusiveScan_kernelLauncher (d_Out d_In : Int → Int) (length : Int) : Int → Int :=
  fun i => if 0 ≤ i ∧ i < length then exclusivePrefixSum d_In i.toNat else d_Out i

/-- Modelled from the spec: the work of `compressBertInput_kernelLauncher` (defined in the
CUDA kernel file) for the flattened position `i`, after Input Compactor: nothing when
`mask[i] ≠ 1`; otherwise row `i` of `from_tensor` is copied verbatim to row `prefix_sum[i]`
of `to_tensor`, and `batch_idx`, `word_idx` at `prefix_sum[i]` receive the original
coordinates `(i / seq_len, i % seq_len)`. -/
def compressRow {α : Type} (from_tensor : Int → α) (mask prefix_sum : Int → Int)
    (seq_len hidden_dim : Int) (out : CompactBuffers α) (i : Nat) : CompactBuffers α :=
  if mask i = 1 then
    { to_tensor := fun k =>
        if prefix_sum i * hidden_dim ≤ k ∧ k < prefix_sum i * hidden_dim + hidden_dim then
          from_tensor ((i : Int) * hidden_dim + (k - prefix_sum i * hidden_dim))
        else out.to_tensor k
      batch_idx := fun r => if r = prefix_sum i then (i : Int) / seq_len else out.batch_idx r
      word_idx := fun r => if r = prefix_sum i then (i : Int) % seq_len else out.word_idx r }
  else out

/-- Modelled from the spec: `compressBertInput_kernelLauncher` (defined in the CUDA kernel
file, outside the file embedded here).  Input Compactor: "For every flattened position i
with mask[i]=1, its destination row in CompactTensor is PrefixSum[i] ... The row's
hidden-size vector is copied verbatim; BatchIdx/WordIdx at that destination are set to the
position's original (b,s).  Positions with mask[i]=0 are dropped; no work is performed for
them."  The positions are visited in ascending order (on the device they are independent
threads; the order only matters when two positions share a destination row). -/
def compressBertInput_kernelLauncher {α : Type} (from_tensor : Int → α)
    (mask prefix_sum : Int → Int) (out : CompactBuffers α)
    (batch_size seq_len hidden_dim : Int) : CompactBuffers α :=
  (List.range (batch_size * seq_len).toNat).foldl
    (compressRow from_tensor mask prefix_sum seq_len hidden_dim) out

/-- Modelled from the spec: the work of `restoreBertOutput_kernelLauncher` (defined in the
CUDA kernel file) for the dense row `i`, after Output Restorer: it is written to the row
`(batch_idx[i], word_idx[i])` of the padded output. -/
def restoreRow {α : Type} (from_tensor : Int → α) (batch_idx word_idx : Int → Int)
    (seq_len hidden_dim : Int) (to_tensor : Int → α) (i : Nat) : Int → α :=
  fun k =>
    if (batch_idx i * seq_len + word_idx i) * hidden_dim ≤ k
        ∧ k < (batch_idx i * seq_len + word_idx i) * hidden_dim + hidden_dim then
      from_tensor
        ((i : Int) * hidden_dim + (k - (batch_idx i * seq_len + word_idx i) * hidden_dim))
    else to_tensor k

/-- Modelled from the spec: `restoreBertOutput_kernelLauncher` (defined in the CUDA kernel
file, outside the file embedded here).  Output Restorer: "each dense row i is scattered to
position (BatchIdx[i], WordIdx[i])", for the `valid_word_num` dense rows. -/
def restoreBertOutput_kernelLauncher {α : Type} (to_tensor from_tensor : Int → α)
    (batch_idx word_idx : Int → Int) (valid_word_num seq_len hidden_dim : Int) : Int → α :=
  (List.range valid_word_num.toNat).foldl
    (restoreRow from_tensor batch_idx word_idx seq_len hidden_dim) to_tensor

/-- Modelled from the spec: the three launchers of the CUDA kernel file as the
specification describes them. -/
def specKernels (α : Type) : KernelLaunchers α :=
  { exclusiveScan := exclusiveScan_kernelLauncher
    compressBertInput := compressBertInput_kernelLauncher
    restoreBertOutput := restoreBertOutput_kernelLauncher }

/-- The call `cudaMemsetAsync(ptr, 0, bytes)` on a buffer of elements of `sz` bytes: the
elements that lie entirely inside the first `bytes` bytes become zero. -/
def memsetZero {α : Type} [Zero α] (sz : Int) (buf : Int → α) (bytes : Int) : Int → α :=
  fun k => if 0 ≤ k ∧ (k + 1) * sz ≤ bytes then 0 else buf k

/-! ## `BertTransformerInputOpFunctor::Compute` (lines 341-406) -/

/-- The fields of `EncoderInputInitParam` read by the input functor; the output tensors
carry their contents before the call. -/
structure EncoderInputInitParam (α : Type) where
  batch_size_ : Int
  head_num_ : Int
  from_seq_len_ : Int
  size_per_head_ : Int
  from_tensor : Int → α
  mask : Int → Int
  to_tensor : Int → α
  batch_idx : Int → Int
  word_idx : Int → Int
  valid_word_num : Int

/-- What an invocation of the input functor leaves behind: the status returned, the calls
issued, and the contents of the four output tensors. -/
structure InputOutcome (α : Type) where
  status : Status
  trace : List Cmd
  out : CompactBuffers α
  valid_word_num : Int

namespace BertTransformerInputOpFunctor

/-- The function `Compute` of the input functor. -/
def Compute {α : Type} (K : KernelLaunchers α) (env : Env) (param : EncoderInputInitParam α) :
    InputOutcome α :=
  let out0 : CompactBuffers α := ⟨param.to_tensor, param.batch_idx, param.word_idx⟩
  -- 1. allocate tf temp memory
  let buf_size := param.batch_size_ * param.from_seq_len_ * 2
  let alloc := Cmd.allocate_temp .DT_INT32 buf_size
  if env.ok 0 = false then
    ⟨.Internal "TF error: context->allocate_temp failed", [alloc], out0, param.valid_word_num⟩
  else if env.tempNull then
    ⟨.Internal "Tensorflow Allocator failed to allocate internal buffer.", [alloc], out0,
      param.valid_word_num⟩
  else
  -- 2. compute mask's prefix sum
  let word_num := param.batch_size_ * param.from_seq_len_
  let prefix_sum_buf_ := K.exclusiveScan env.temp param.mask word_num
  let scan := Cmd.launch .exclusiveScan [.temp 0, .param .mask 0] [word_num]
  -- 3. compress input tensor
  let out := K.compressBertInput param.from_tensor param.mask prefix_sum_buf_ out0
    param.batch_size_ param.from_seq_len_ (param.head_num_ * param.size_per_head_)
  let compress := Cmd.launch .compressBertInput
    [.param .from_tensor 0, .param .mask 0, .temp 0, .param .to_tensor 0,
     .param .batch_idx 0, .param .word_idx 0]
    [param.batch_size_, param.from_seq_len_, param.head_num_ * param.size_per_head_]
  -- 2. get valid word num
  let copy1 := Cmd.cudaMemcpyAsync (.host .valid_word_num) (.temp (word_num - 1)) 4
    .cudaMemcpyDeviceToHost
  if env.ok 3 = false then
    ⟨.Internal env.what, [alloc, scan, compress, copy1], out, param.valid_word_num⟩
  else
  let valid_word_num := prefix_sum_buf_ (word_num - 1)
  let copy2 := Cmd.cudaMemcpyAsync (.host .last_mask) (.param .mask (word_num - 1)) 4
    .cudaMemcpyDeviceToHost
  if env.ok 4 = false then
    ⟨.Internal env.what, [alloc, scan, compress, copy1, copy2], out, param.valid_word_num⟩
  else
  let last_mask := param.mask (word_num - 1)
  let sync := Cmd.cudaStreamSynchronize
  if env.ok 5 = false then
    ⟨.Internal env.what, [alloc, scan, compress, copy1, copy2, sync], out,
      param.valid_word_num⟩
  else
  -- in case of the last mask is 1, since this is exclusive scan
  let valid_word_num := if last_mask = 1 then valid_word_num + 1 else valid_word_num
  let copy3 := Cmd.cudaMemcpyAsync (.param .valid_word_num 0) (.host .valid_word_num) 4
    .cudaMemcpyHostToDevice
  if env.ok 6 = false then
    ⟨.Internal env.what, [alloc, scan, compress, copy1, copy2, sync, copy3], out,
      param.valid_word_num⟩
  else
    ⟨.OK, [alloc, scan, compress, copy1, copy2, sync, copy3], out, valid_word_num⟩

end BertTransformerInputOpFunctor

/-! ## `BertTransformerOutputOpFunctor::Compute` (lines 414-448) -/

/-- The fields of `EncoderOutputInitParam` read by the output functor; `to_tensor` carries
its contents before the call. -/
structure EncoderOutputInitParam (α : Type) where
  batch_size_ : Int
  head_num_ : Int
  from_seq_len_ : Int
  size_per_head_ : Int
  from_tensor : Int → α
  batch_idx : Int → Int
  word_idx : Int → Int
  valid_word_num : Int
  to_tensor : Int → α

/-- What an invocation of the output functor leaves behind. -/
structure OutputOutcome (α : Type) where
  status : Status
  trace : List Cmd
  to_tensor : Int → α

namespace BertTransformerOutputOpFunctor

/-- The function `Compute` of the output functor.  The host variable `valid_word_num` receives the
device scalar through the copy of lines 426-427; no barrier follows, so the value used by
the launch is the one of a copy that has completed when `cudaMemcpyAsync` returns. -/
def Compute {α : Type} [Zero α] (K : KernelLaunchers α) (env : Env) (op : OperationType)
    (param : EncoderOutputInitParam α) : OutputOutcome α :=
  if env.ok 0 = false then
    ⟨.Internal env.what, [readbackValidWordNum], param.to_tensor⟩
  else
  let valid_word_num := param.valid_word_num
  let tensor_size :=
    param.batch_size_ * param.head_num_ * param.from_seq_len_ * param.size_per_head_
  let memset := Cmd.cudaMemsetAsync (.param .to_tensor 0) 0 (tensor_size * sizeofDataType op)
  if env.ok 1 = false then
    ⟨.Internal env.what, [readbackValidWordNum, memset], param.to_tensor⟩
  else
  let to_tensor := memsetZero (sizeofDataType op) param.to_tensor
    (tensor_size * sizeofDataType op)
  let restore := Cmd.launch .restoreBertOutput
    [.param .to_tensor 0, .param .from_tensor 0, .param .batch_idx 0, .param .word_idx 0]
    [valid_word_num, param.from_seq_len_, param.head_num_ * param.size_per_head_]
  ⟨.OK, [readbackValidWordNum, memset, restore],
    K.restoreBertOutput to_tensor param.from_tensor param.batch_idx param.word_idx
      valid_word_num param.from_seq_len_ (param.head_num_ * param.size_per_head_)⟩

end BertTransformerOutputOpFunctor

/-! ## The XLA custom call `compressBertInput` (lines 37-99) -/

/-- The function `split(str, delim)`: the fields of `str` between occurrences of `delim`.  The source
walks the string with `find`/`substr`, pushing the characters between two consecutive
delimiters and finally the characters after the last one; here the same fields are built
from the front: a delimiter closes the current (possibly empty) field, any other character
joins the first field of what follows.  A string with `k` delimiters has `k + 1` fields.
The source's default `delim = ' '` is passed explicitly by the caller. -/
def split (str : List Char) (delim : Char) : List (List Char) :=
  match str with
  | [] => [[]]
  | c :: cs =>
    if c = delim then [] :: split cs delim
    else
      match split cs delim with
      | [] => [[c]]
      | f :: fs => (c :: f) :: fs

/-- The exceptions that can leave the custom call. -/
inductive Exception where
  | invalid_argument
  | out_of_range
  | runtime_error (what : String)
  deriving DecidableEq, Repr

/-- The predicate `isspace` in the "C" locale. -/
def isspace (c : Char) : Bool :=
  c = ' ' || c = '\t' || c = '\n' || c = '\x0b' || c = '\x0c' || c = '\r'

/-- Value of a run of decimal digits. -/
def digitsValue (ds : List Char) : Nat :=
  ds.foldl (fun acc c => 10 * acc + (c.toNat - '0'.toNat)) 0

/-- The field after the leading white space skipped by `strtol`. -/
def stoiBody (str : List Char) : List Char := str.dropWhile isspace

/-- The longest run of decimal digits after the white space and the optional sign. -/
def stoiDigits (str : List Char) : List Char :=
  (if (stoiBody str).head? = some '-' ∨ (stoiBody str).head? = some '+' then (stoiBody str).tail
   else stoiBody str).takeWhile Char.isDigit

/-- The signed value of the digits read. -/
def stoiValue (str : List Char) : Int :=
  if (stoiBody str).head? = some '-' then -(digitsValue (stoiDigits str) : Int)
  else (digitsValue (stoiDigits str) : Int)

/-- The function `std::stoi(str)` of the C++ standard library (base 10, through `strtol`): leading white
space is skipped, an optional sign is read, then the longest run of decimal digits; with no
digit it throws `std::invalid_argument`, with a value outside `int` it throws
`std::out_of_range`; characters after the digits are ignored. -/
def stoi (str : List Char) : Except Exception Int :=
  if stoiDigits str = [] then .error .invalid_argument
  else if stoiValue str < -2147483648 ∨ 2147483647 < stoiValue str then .error .out_of_range
  else .ok (stoiValue str)

/-- The device buffers `buffers[0..6]` handed to the custom call; the output buffers carry
their contents before the call. -/
structure CustomCallBuffers (α : Type) where
  from_tensor : Int → α
  mask : Int → Int
  prefix_sum : Int → Int
  to_tensor : Int → α
  valid_word_num : Int
  batch_idx : Int → Int
  word_idx : Int → Int

/-- What a call of `compressBertInput` leaves behind: whether it returned or an exception
left it, the calls issued, and the contents of the output buffers. -/
structure CallOutcome (α : Type) where
  result : Except Exception Unit
  trace : List Cmd
  out : CompactBuffers α
  valid_word_num : Int

/-- The custom call `compressBertInput<T>(stream, buffers, cfg, len)`, where `cfg` is the
configuration string (the third parameter of the source).  `sizes_3[i]` is an unchecked
`std::vector` element access: when the field does not exist the behaviour is undefined,
which is the result `none`.  The function has no `try` block: an exception of `std::stoi`
or `check_cuda_error` leaves it. -/
def compressBertInput {α : Type} (K : KernelLaunchers α) (env : Env) (cfg : List Char)
    (buffers : CustomCallBuffers α) : Option (CallOutcome α) :=
  let out0 : CompactBuffers α := ⟨buffers.to_tensor, buffers.batch_idx, buffers.word_idx⟩
  let sizes_3 := split cfg ' '
  match sizes_3.get? 0 with
  | none => none
  | some f0 =>
  match stoi f0 with
  | .error e => some ⟨.error e, [], out0, buffers.valid_word_num⟩
  | .ok batch_size =>
  match sizes_3.get? 1 with
  | none => none
  | some f1 =>
  match stoi f1 with
  | .error e => some ⟨.error e, [], out0, buffers.valid_word_num⟩
  | .ok from_seq_len =>
  match sizes_3.get? 2 with
  | none => none
  | some f2 =>
  match stoi f2 with
  | .error e => some ⟨.error e, [], out0, buffers.valid_word_num⟩
  | .ok hidden_size =>
  let word_num := batch_size * from_seq_len
  let out := K.compressBertInput buffers.from_tensor buffers.mask buffers.prefix_sum out0
    batch_size from_seq_len hidden_size
  let compress := Cmd.launch .compressBertInput
    [.param .from_tensor 0, .param .mask 0, .param .prefix_sum 0, .param .to_tensor 0,
     .param .batch_idx 0, .param .word_idx 0]
    [batch_size, from_seq_len, hidden_size]
  let copy1 := Cmd.cudaMemcpyAsync (.host .valid_word_num) (.param .prefix_sum (word_num - 1)) 4
    .cudaMemcpyDeviceToHost
  if env.ok 1 = false then
    some ⟨.error (.runtime_error env.what), [compress, copy1], out, buffers.valid_word_num⟩
  else
  let valid_word_num_host := buffers.prefix_sum (word_num - 1)
  let copy2 := Cmd.cudaMemcpyAsync (.host .last_mask) (.param .mask (word_num - 1)) 4
    .cudaMemcpyDeviceToHost
  if env.ok 2 = false then
    some ⟨.error (.runtime_error env.what), [compress, copy1, copy2], out,
      buffers.valid_word_num⟩
  else
  let last_mask_host := buffers.mask (word_num - 1)
  let sync := Cmd.cudaStreamSynchronize
  if env.ok 3 = false then
    some ⟨.error (.runtime_error env.what), [compress, copy1, copy2, sync], out,
      buffers.valid_word_num⟩
  else
  -- in case of the last mask is 1, since this is exclusive scan
  let valid_word_num_host :=
    if last_mask_host = 1 then valid_word_num_host + 1 else valid_word_num_host
  let copy3 := Cmd.cudaMemcpyAsync (.param .valid_word_num 0) (.host .valid_word_num) 4
    .cudaMemcpyHostToDevice
  if env.ok 4 = false then
    some ⟨.error (.runtime_error env.what), [compress, copy1, copy2, sync, copy3], out,
      buffers.valid_word_num⟩
  else
    some ⟨.ok (), [compress, copy1, copy2, sync, copy3], out, valid_word_num_host⟩

/-- A decimal integer as the specification's configuration expects it: an optional sign
followed by one or more decimal digits, and nothing else. -/
def isDecimalInteger (f : List Char) : Bool :=
  let ds := if f.head? = some '-' ∨ f.head? = some '+' then f.tail else f
  !ds.isEmpty && ds.all Char.isDigit

/-- The configuration string consists of three space-separated decimal integers. -/
def isThreeDecimalIntegers (cfg : List Char) : Bool :=
  (split cfg ' ').length == 3 && (split cfg ' ').all isDecimalInteger

/-- A buffer with the given first entries and zero elsewhere. -/
def listBuf (l : List Int) : Int → Int := fun i => if 0 ≤ i then l.getD i.toNat 0 else 0

/-! ## The pipeline of the specification: compactor, encoder layer, restorer -/

instance (mask : Int → Int) (n : Nat) : Decidable (isZeroOneMask mask n) := by
  unfold isZeroOneMask; infer_instance

instance (prefix_sum mask : Int → Int) (n : Nat) :
    Decidable (isExclusivePrefixSum prefix_sum mask n) := by
  unfold isExclusivePrefixSum; infer_instance

/-- Every call of the invocation succeeds and the temporary has a data pointer. -/
def Env.succeeds (env : Env) : Prop := (∀ i, env.ok i = true) ∧ env.tempNull = false

/-- The input compactor: the input functor run with the launchers of the specification. -/
def inputCompactor {α : Type} (env : Env) (param : EncoderInputInitParam α) : InputOutcome α :=
  BertTransformerInputOpFunctor.Compute (specKernels α) env param

/-- The parameters of the output functor when it is fed the compact tensor, the index arrays
and the valid word count that the input functor left behind, for the same configuration;
`to_tensor` is the padded output buffer before the call. -/
def restoreParam {α : Type} (param : EncoderInputInitParam α) (o : InputOutcome α)
    (to_tensor : Int → α) : EncoderOutputInitParam α :=
  { batch_size_ := param.batch_size_
    head_num_ := param.head_num_
    from_seq_len_ := param.from_seq_len_
    size_per_head_ := param.size_per_head_
    from_tensor := o.out.to_tensor
    batch_idx := o.out.batch_idx
    word_idx := o.out.word_idx
    valid_word_num := o.valid_word_num
    to_tensor := to_tensor }

/-- The output restorer: the output functor run with the launchers of the specification. -/
def outputRestorer {α : Type} [Zero α] (env : Env) (op : OperationType)
    (param : EncoderOutputInitParam α) : OutputOutcome α :=
  BertTransformerOutputOpFunctor.Compute (specKernels α) env op param

/-- The device memory that the encoder layer can address: the caller tensors named by its
`param` (element tensors and the two index arrays) and its workspace `buf`. -/
structure LayerState (α : Type) where
  tensors : ParamBuf → Int → α
  indices : ParamBuf → Int → Int
  buf : Int → α

/-- The memory of the encoder layer when it runs after the input functor: `from_tensor` and
`to_tensor` are the compact tensor, `batch_idx` and `word_idx` the index arrays, every other
tensor (weights, biases, attention mask, output) comes from the caller's `weights`, and the
workspace starts with arbitrary contents `ws`. -/
def layerState {α : Type} (o : InputOutcome α) (weights : ParamBuf → Int → α)
    (ws : Int → α) : LayerState α :=
  { tensors := fun p =>
      if p = .from_tensor ∨ p = .to_tensor then o.out.to_tensor else weights p
    indices := fun p =>
      if p = .batch_idx then o.out.batch_idx
      else if p = .word_idx then o.out.word_idx
      else fun _ => 0
    buf := ws }

/-- The Compacted Encoder Layer run on the outputs of the input functor.  The calls are
those of `BertTransformerOpFunctor.Compute` for the valid word count left by the input
functor; what each call does to the device memory (`device`) is the business of cuBLAS and
of the floating-point kernels and is left arbitrary.  The result is the status and the
contents of `transformer_out`. -/
def runEncoderLayer {α : Type} (device : Cmd → LayerState α → LayerState α) (env : Env)
    (op : OperationType) (t : TransformerParam) (weights : ParamBuf → Int → α)
    (ws : Int → α) (o : InputOutcome α) : Status × (Int → α) :=
  let run := BertTransformerOpFunctor.Compute env op t o.valid_word_num
  (run.2, (run.1.foldl (fun st c => device c st) (layerState o weights ws)).tensors
    .transformer_out)

/-- The end-to-end scenario of the specification: `batch_size = 2`, `seq_len = 4`,
`hidden_size = 8` (two heads of size four), masks `[1,1,0,0]` and `[1,1,1,0]`; the padded
batch holds `100 + k` at offset `k`, the output buffers hold `-1`. -/
def exampleInput : EncoderInputInitParam Int :=
  { batch_size_ := 2, head_num_ := 2, from_seq_len_ := 4, size_per_head_ := 4
    from_tensor := fun k => k + 100
    mask := listBuf [1, 1, 0, 0, 1, 1, 1, 0]
    to_tensor := fun _ => -1, batch_idx := fun _ => -1, word_idx := fun _ => -1
    valid_word_num := -1 }

/-- The same scenario as buffers of the custom call, with the exclusive prefix sum of the
mask in `prefix_sum`. -/
def exampleBuffers : CustomCallBuffers Int :=
  { from_tensor := fun k => k + 100
    mask := listBuf [1, 1, 0, 0, 1, 1, 1, 0]
    prefix_sum := listBuf [0, 1, 2, 2, 2, 3, 4, 5]
    to_tensor := fun _ => -1, valid_word_num := -1
    batch_idx := fun _ => -1, word_idx := fun _ => -1 }

/-! ## Theorems: workspace layout -/

/-- The predicate `Region.overlaps` is exactly the existence of a common element. -/
theorem Region.overlaps_iff (r₁ r₂ : Region) :
    r₁.overlaps r₂ ↔ ∃ k, r₁.contains k ∧ r₂.contains k := by
  unfold Region.overlaps Region.contains
  constructor
  · intro h
    refine ⟨max r₁.off r₂.off, ⟨le_max_left _ _, ?_⟩, ⟨le_max_right _ _, ?_⟩⟩
    · exact lt_of_lt_of_le h (min_le_left _ _)
    · exact lt_of_lt_of_le h (min_le_right _ _)
  · rintro ⟨k, ⟨h1, h2⟩, ⟨h3, h4⟩⟩
    exact lt_of_le_of_lt (max_le h1 h3) (lt_min h2 h4)

/-- The sizes are positive for a configuration with all four dimensions at least one. -/
theorem input_tensor_size_pos (t : TransformerParam)
    (hb : 1 ≤ t.batch_size_) (hh : 1 ≤ t.head_num_)
    (hs : 1 ≤ t.from_seq_len_) (hd : 1 ≤ t.size_per_head_) :
    0 < input_tensor_size t := by
  unfold input_tensor_size
  positivity

/-- A dense buffer of `valid_word_num` rows is no larger than a padded one. -/
theorem dense_le_input_tensor_size (t : TransformerParam) (valid_word_num : Int)
    (hh : 1 ≤ t.head_num_) (hd : 1 ≤ t.size_per_head_)
    (hv : valid_word_num ≤ t.batch_size_ * t.from_seq_len_) :
    valid_word_num * (t.head_num_ * t.size_per_head_) ≤ input_tensor_size t := by
  unfold input_tensor_size
  have hhd : 0 ≤ t.head_num_ * t.size_per_head_ := by positivity
  calc valid_word_num * (t.head_num_ * t.size_per_head_)
      ≤ (t.batch_size_ * t.from_seq_len_) * (t.head_num_ * t.size_per_head_) :=
        mul_le_mul_of_nonneg_right hv hhd
    _ = t.batch_size_ * t.head_num_ * t.from_seq_len_ * t.size_per_head_ := by ring

/-- In full precision no configuration fits: the padded `value_` block and `transpose_dst_`
cannot both end inside the bytes allocated. -/
theorem workspace_never_fits_FP32 (t : TransformerParam)
    (hb : 1 ≤ t.batch_size_) (hh : 1 ≤ t.head_num_)
    (hs : 1 ≤ t.from_seq_len_) (hd : 1 ≤ t.size_per_head_) :
    ¬ (fitsWorkspace .FP32 t (value_region t)
      ∧ fitsWorkspace .FP32 t (transpose_dst_region t)) := by
  have hI := input_tensor_size_pos t hb hh hs hd
  simp only [fitsWorkspace, Region.stopBytes, Region.stop, value_region, transpose_dst_region,
    value_, transpose_dst_, workspaceBytes, buf_size, workspaceDType, DType.bytes,
    sizeofDataType]
  generalize attn_tensor_size t = A
  generalize input_tensor_size t = I at hI
  rintro ⟨h1, h2⟩
  have := le_max_left A I
  omega

/-- The attention scores reach into the padded `query_` block exactly when
`from_seq_len > 3 * size_per_head`. -/
theorem qk_buf_overlaps_query_iff (t : TransformerParam)
    (hb : 1 ≤ t.batch_size_) (hh : 1 ≤ t.head_num_)
    (hs : 1 ≤ t.from_seq_len_) (hd : 1 ≤ t.size_per_head_) :
    (qk_buf_region t).overlaps (query_region t) ↔ 3 * t.size_per_head_ < t.from_seq_len_ := by
  have hI := input_tensor_size_pos t hb hh hs hd
  have hc : 0 < t.batch_size_ * t.head_num_ * t.from_seq_len_ := by positivity
  have hA : attn_tensor_size t
      = t.batch_size_ * t.head_num_ * t.from_seq_len_ * t.from_seq_len_ := rfl
  have hI' : 3 * input_tensor_size t
      = t.batch_size_ * t.head_num_ * t.from_seq_len_ * (3 * t.size_per_head_) := by
    unfold input_tensor_size; ring
  have key : 3 * input_tensor_size t < attn_tensor_size t
      ↔ 3 * t.size_per_head_ < t.from_seq_len_ := by
    rw [hA, hI']
    exact mul_lt_mul_left hc
  rw [← key]
  simp only [Region.overlaps, Region.stop, qk_buf_region, query_region, qk_buf_, query_]
  generalize attn_tensor_size t = A
  generalize input_tensor_size t = I at hI
  omega

/-! ### C2: size of the allocation against the regions addressed in it -/

/-- C2 (evaluated on the code): the workspace is allocated as `buf_size` elements of
`DT_UINT8`, that is `13*I + A` bytes, while the regions are addressed in `DataType_`
elements.  For `batch_size = head_num = from_seq_len = size_per_head = 1` in full precision
the allocation has 14 bytes, and the padded `value_` block ends at byte 24 and the zero fill
of `query_/key_/value_` ends at byte 24; in reduced precision with `from_seq_len = 12`,
`size_per_head = 1` the allocation has 300 bytes and `transpose_dst_` ends at byte 312.
Counted in `DataType_` elements the same regions would all fit in `13*I + A`. -/
theorem C2_workspace_allocation_too_small :
    workspaceBytes ⟨1, 1, 1, 1⟩ = 14
    ∧ (value_region ⟨1, 1, 1, 1⟩).stopBytes (sizeofDataType .FP32) = 24
    ∧ (memset_qkv_region ⟨1, 1, 1, 1⟩).stopBytes (sizeofDataType .FP32) = 24
    ∧ ¬ fitsWorkspace .FP32 ⟨1, 1, 1, 1⟩ (value_region ⟨1, 1, 1, 1⟩)
    ∧ ¬ fitsWorkspace .FP32 ⟨1, 1, 1, 1⟩ (memset_qkv_region ⟨1, 1, 1, 1⟩)
    ∧ workspaceBytes ⟨1, 1, 12, 1⟩ = 300
    ∧ (transpose_dst_region ⟨1, 1, 12, 1⟩).stopBytes (sizeofDataType .HALF) = 312
    ∧ ¬ fitsWorkspace .HALF ⟨1, 1, 12, 1⟩ (transpose_dst_region ⟨1, 1, 12, 1⟩)
    ∧ (∀ r ∈ workspaceRegions ⟨1, 1, 1, 1⟩ 1, r.stop ≤ buf_size ⟨1, 1, 1, 1⟩) := by
  decide

/-! ### C3: regions live during self-attention -/

/-- C3 (evaluated on the code): for `batch_size = head_num = size_per_head = 1` and
`from_seq_len = 4` (`I = 4`, `A = 16`) the attention scores `qk_buf_ = [0, 16)` written by
the first batched GEMM share the elements `[12, 16)` with the `query_` block it reads, and
cover `key_`; for `from_seq_len = 5` (`I = 5`, `A = 25`) the attention output
`transpose_dst_ = [25, 30)` written by the second batched GEMM is the very range of the
`value_` block it reads.  The same happens for a BERT-base shape with 256 positions
(`head_num = 12`, `size_per_head = 64`).  The two batched GEMM calls are issued with these
very addresses: the first reads `buf + 16` and `buf + 12` and writes 16 elements at
`buf + 0`; the second reads `buf + 25` and writes at `buf + 25`. -/
theorem C3_attention_regions_overlap :
    qk_buf_region ⟨1, 1, 4, 1⟩ = ⟨0, 16⟩
    ∧ query_region ⟨1, 1, 4, 1⟩ = ⟨12, 4⟩
    ∧ (qk_buf_region ⟨1, 1, 4, 1⟩).overlaps (query_region ⟨1, 1, 4, 1⟩)
    ∧ (qk_buf_region ⟨1, 1, 5, 1⟩).overlaps (key_region ⟨1, 1, 5, 1⟩)
    ∧ transpose_dst_region ⟨1, 1, 5, 1⟩ = ⟨25, 5⟩
    ∧ value_region ⟨1, 1, 5, 1⟩ = ⟨25, 5⟩
    ∧ (transpose_dst_region ⟨1, 1, 5, 1⟩).overlaps (value_region ⟨1, 1, 5, 1⟩)
    ∧ (qk_buf_region ⟨1, 12, 256, 64⟩).overlaps (query_region ⟨1, 12, 256, 64⟩)
    ∧ (BertTransformerOpFunctor.steps .FP32 ⟨1, 1, 4, 1⟩ 4).get? 8
        = some (.check (.cublasGemmStridedBatchedEx .CUBLAS_OP_T .CUBLAS_OP_N 4 4 1
            (.buf 16) 1 4 (.buf 12) 1 4 (.buf 0) 4 16 1 .FP32 (-1)))
    ∧ (BertTransformerOpFunctor.steps .FP32 ⟨1, 1, 5, 1⟩ 5).get? 10
        = some (.check (.cublasGemmStridedBatchedEx .CUBLAS_OP_N .CUBLAS_OP_N 1 5 5
            (.buf 25) 1 5 (.buf 0) 5 25 (.buf 25) 1 5 1 .FP32 (-1))) := by
  decide

/-! ### C10: regions live in the un-pad, projection and feed-forward steps -/

/-- Every call issued by a run is the call of one of the steps. -/
theorem runSteps_trace_mem (env : Env) (l : List Step) :
    ∀ (i : Nat) (c : Cmd), c ∈ (runSteps env i l).1 → c ∈ l.map Step.cmd := by
  induction l with
  | nil => intro i c h; simp [runSteps] at h
  | cons s rest ih =>
    intro i c h
    cases s with
    | call c' =>
      simp only [runSteps, List.mem_cons] at h
      rcases h with h | h
      · simp [h, Step.cmd]
      · simp [ih (i + 1) c h]
    | check c' =>
      simp only [runSteps] at h
      split at h
      · simp only [List.mem_cons] at h
        rcases h with h | h
        · simp [h, Step.cmd]
        · simp [ih (i + 1) c h]
      · simp only [List.mem_singleton] at h
        simp [h, Step.cmd]

/-! ## Lemmas: prefix sums and the compaction kernels -/

/-- A 0/1 mask on `n` positions is one on any shorter range. -/
theorem isZeroOneMask_mono {mask : Int → Int} {n m : Nat} (h : isZeroOneMask mask n)
    (hm : m ≤ n) : isZeroOneMask mask m :=
  fun i hi => h i (lt_of_lt_of_le hi hm)

/-- For a 0/1 mask the exclusive prefix sum at `n` is the number of ones before `n`. -/
theorem exclusivePrefixSum_eq_countOnes (mask : Int → Int) :
    ∀ n : Nat, isZeroOneMask mask n → exclusivePrefixSum mask n = (countOnes mask n : Int) := by
  intro n
  induction n with
  | zero => intro _; rfl
  | succ n ih =>
    intro h
    have ih' := ih (isZeroOneMask_mono h (Nat.le_succ n))
    simp only [exclusivePrefixSum, countOnes, ih']
    rcases h n (Nat.lt_succ_self n) with h0 | h1
    · simp [h0]
    · simp [h1]

/-- The exclusive prefix sum of a 0/1 mask is non-negative. -/
theorem exclusivePrefixSum_nonneg (mask : Int → Int) (n : Nat) (h : isZeroOneMask mask n) :
    0 ≤ exclusivePrefixSum mask n := by
  rw [exclusivePrefixSum_eq_countOnes mask n h]
  exact Int.natCast_nonneg _

/-- The exclusive prefix sum of a 0/1 mask is non-decreasing. -/
theorem exclusivePrefixSum_mono (mask : Int → Int) (n : Nat) (h : isZeroOneMask mask n) :
    ∀ j : Nat, j ≤ n → ∀ i : Nat, i ≤ j →
      exclusivePrefixSum mask i ≤ exclusivePrefixSum mask j := by
  intro j
  induction j with
  | zero => intro _ i hi; simp [Nat.le_zero.mp hi]
  | succ j ih =>
    intro hj i hi
    rcases Nat.lt_or_ge i (j + 1) with hlt | hge
    · have := ih (Nat.le_of_succ_le hj) i (Nat.lt_succ_iff.mp hlt)
      have hm := h j (by omega)
      simp only [exclusivePrefixSum]
      rcases hm with h0 | h1 <;> omega
    · have : i = j + 1 := le_antisymm hi hge
      subst this; exact le_refl _

/-- The exclusive prefix sum increases strictly across a mask-one position. -/
theorem exclusivePrefixSum_lt_of_one (mask : Int → Int) (n : Nat) (h : isZeroOneMask mask n)
    (p q : Nat) (hpq : p < q) (hq : q ≤ n) (hp : mask p = 1) :
    exclusivePrefixSum mask p < exclusivePrefixSum mask q := by
  have h1 := exclusivePrefixSum_mono mask n h q hq (p + 1) hpq
  simp only [exclusivePrefixSum, hp] at h1
  omega

/-- Every row below the prefix sum at `n` is the destination of a mask-one position. -/
theorem exists_position_of_row (mask : Int → Int) :
    ∀ n : Nat, isZeroOneMask mask n → ∀ r : Int, 0 ≤ r → r < exclusivePrefixSum mask n →
      ∃ p : Nat, p < n ∧ mask p = 1 ∧ exclusivePrefixSum mask p = r := by
  intro n
  induction n with
  | zero => intro _ r h0 h1; simp [exclusivePrefixSum] at h1; omega
  | succ n ih =>
    intro h r h0 h1
    have hn := isZeroOneMask_mono h (Nat.le_succ n)
    simp only [exclusivePrefixSum] at h1
    rcases lt_or_ge r (exclusivePrefixSum mask n) with hlt | hge
    · obtain ⟨p, hp, hm, he⟩ := ih hn r h0 hlt
      exact ⟨p, Nat.lt_succ_of_lt hp, hm, he⟩
    · rcases h n (Nat.lt_succ_self n) with hz | ho
      · rw [hz] at h1; omega
      · refine ⟨n, Nat.lt_succ_self n, ho, ?_⟩
        rw [ho] at h1; omega

/-- For the all-one mask the exclusive prefix sum is the identity. -/
theorem exclusivePrefixSum_all_ones (mask : Int → Int) :
    ∀ n : Nat, (∀ i : Nat, i < n → mask i = 1) → exclusivePrefixSum mask n = n := by
  intro n
  induction n with
  | zero => intro _; rfl
  | succ n ih =>
    intro h
    simp only [exclusivePrefixSum, ih (fun i hi => h i (Nat.lt_succ_of_lt hi)),
      h n (Nat.lt_succ_self n)]
    push_cast; ring

/-- An offset lies in one block of `h` elements only. -/
theorem block_index_unique (a b h j : Int) (hj0 : 0 ≤ j) (hjh : j < h)
    (h1 : a * h ≤ b * h + j) (h2 : b * h + j < a * h + h) : a = b := by
  have hpos : 0 < h := lt_of_le_of_lt hj0 hjh
  rcases lt_trichotomy a b with hlt | heq | hgt
  · exfalso
    have : (a + 1) * h ≤ b * h := mul_le_mul_of_nonneg_right (by omega) hpos.le
    have e : (a + 1) * h = a * h + h := by ring
    omega
  · exact heq
  · exfalso
    have : (b + 1) * h ≤ a * h := mul_le_mul_of_nonneg_right (by omega) hpos.le
    have e : (b + 1) * h = b * h + h := by ring
    omega

/-- After the positions below `N` have been visited, the destination row of every mask-one
position below `N` holds its coordinates and its contents. -/
theorem compress_fold_row {α : Type} (X : Int → α) (mask ps : Int → Int) (s hd : Int)
    (out : CompactBuffers α) (n : Nat) (hm : isZeroOneMask mask n)
    (hps : isExclusivePrefixSum ps mask n) :
    ∀ N : Nat, N ≤ n → ∀ p : Nat, p < N → mask p = 1 →
      ((List.range N).foldl (compressRow X mask ps s hd) out).batch_idx
          (exclusivePrefixSum mask p) = (p : Int) / s
      ∧ ((List.range N).foldl (compressRow X mask ps s hd) out).word_idx
          (exclusivePrefixSum mask p) = (p : Int) % s
      ∧ ∀ j : Int, 0 ≤ j → j < hd →
          ((List.range N).foldl (compressRow X mask ps s hd) out).to_tensor
            (exclusivePrefixSum mask p * hd + j) = X ((p : Int) * hd + j) := by
  intro N
  induction N with
  | zero => intro _ p hp; omega
  | succ N ih =>
    intro hN p hp hmp
    rw [List.range_succ, List.foldl_append, List.foldl_cons, List.foldl_nil]
    have hpsN : ps N = exclusivePrefixSum mask N := hps N (by omega)
    rcases Nat.lt_or_ge p N with hlt | hge
    · obtain ⟨ihb, ihw, iht⟩ := ih (by omega) p hlt hmp
      have hlt' : exclusivePrefixSum mask p < exclusivePrefixSum mask N :=
        exclusivePrefixSum_lt_of_one mask n hm p N hlt (by omega) hmp
      unfold compressRow
      split
      · refine ⟨?_, ?_, ?_⟩
        · simp only [hpsN]
          rw [if_neg (by omega)]; exact ihb
        · simp only [hpsN]
          rw [if_neg (by omega)]; exact ihw
        · intro j hj0 hjh
          simp only [hpsN]
          rw [if_neg]
          · exact iht j hj0 hjh
          · rintro ⟨h1, h2⟩
            have := block_index_unique _ _ hd j hj0 hjh h1 h2
            omega
      · exact ⟨ihb, ihw, iht⟩
    · have hpN : p = N := by omega
      subst hpN
      unfold compressRow
      rw [if_pos hmp]
      refine ⟨?_, ?_, ?_⟩
      · simp [hpsN]
      · simp [hpsN]
      · intro j hj0 hjh
        simp only [hpsN]
        rw [if_pos ⟨by omega, by omega⟩]
        congr 1; ring

/-- The compaction reads the padded batch only in rows whose mask entry is one. -/
theorem compress_fold_congr {α : Type} (X X' : Int → α) (mask ps : Int → Int) (s hd : Int)
    (out : CompactBuffers α) (n : Nat)
    (hagree : ∀ i : Nat, i < n → mask i = 1 → ∀ j : Int, 0 ≤ j → j < hd →
      X ((i : Int) * hd + j) = X' ((i : Int) * hd + j)) :
    ∀ N : Nat, N ≤ n →
      (List.range N).foldl (compressRow X mask ps s hd) out
        = (List.range N).foldl (compressRow X' mask ps s hd) out := by
  intro N
  induction N with
  | zero => intro _; rfl
  | succ N ih =>
    intro hN
    rw [List.range_succ, List.foldl_append, List.foldl_append, ih (by omega)]
    simp only [List.foldl_cons, List.foldl_nil]
    unfold compressRow
    split
    · next hmN =>
      congr 1
      funext k
      split
      · next hk =>
        have := hagree N (by omega) hmN (k - ps N * hd) (by omega) (by omega)
        exact this
      · rfl
    · rfl

/-- The restore kernel leaves an element alone when no dense row is scattered onto it. -/
theorem restore_fold_untouched {α : Type} (C : Int → α) (bi wi : Int → Int) (s hd : Int)
    (to0 : Int → α) (k : Int) :
    ∀ N : Nat, (∀ r : Nat, r < N →
        ¬ ((bi r * s + wi r) * hd ≤ k ∧ k < (bi r * s + wi r) * hd + hd)) →
      (List.range N).foldl (restoreRow C bi wi s hd) to0 k = to0 k := by
  intro N
  induction N with
  | zero => intro _; rfl
  | succ N ih =>
    intro h
    rw [List.range_succ, List.foldl_append, List.foldl_cons, List.foldl_nil]
    unfold restoreRow
    rw [if_neg (h N (Nat.lt_succ_self N))]
    exact ih (fun r hr => h r (Nat.lt_succ_of_lt hr))

/-- When the dense rows have distinct targets, each target row holds its dense row. -/
theorem restore_fold_row {α : Type} (C : Int → α) (bi wi : Int → Int) (s hd : Int)
    (to0 : Int → α) (V : Nat)
    (hinj : ∀ r r' : Nat, r < V → r' < V → bi r * s + wi r = bi r' * s + wi r' → r = r') :
    ∀ N : Nat, N ≤ V → ∀ r : Nat, r < N → ∀ j : Int, 0 ≤ j → j < hd →
      (List.range N).foldl (restoreRow C bi wi s hd) to0 ((bi r * s + wi r) * hd + j)
        = C ((r : Int) * hd + j) := by
  intro N
  induction N with
  | zero => intro _ r hr; omega
  | succ N ih =>
    intro hN r hr j hj0 hjh
    rw [List.range_succ, List.foldl_append, List.foldl_cons, List.foldl_nil]
    rcases Nat.lt_or_ge r N with hlt | hge
    · unfold restoreRow
      rw [if_neg]
      · exact ih (by omega) r hlt j hj0 hjh
      · rintro ⟨h1, h2⟩
        have := block_index_unique _ _ hd j hj0 hjh h1 h2
        have := hinj N r (by omega) (by omega) this
        omega
    · have hrN : r = N := by omega
      subst hrN
      unfold restoreRow
      rw [if_pos ⟨by omega, by omega⟩]
      congr 1; ring

/-- The number of flattened positions of a configuration with both dimensions positive. -/
theorem word_num_toNat (b s : Int) (hb : 1 ≤ b) (hs : 1 ≤ s) :
    1 ≤ (b * s).toNat ∧ (((b * s).toNat : Nat) : Int) = b * s := by
  have h : 1 ≤ b * s := by nlinarith
  constructor
  · omega
  · exact Int.toNat_of_nonneg (by omega)

/-- The host correction of lines 86-96 and 379-390: the last entry of an exclusive prefix sum,
plus one when the last mask entry is one, is the number of ones. -/
theorem validWordNum_eq_countOnes (mask ps : Int → Int) (n : Nat) (hn : 1 ≤ n)
    (hm : isZeroOneMask mask n) (hps : isExclusivePrefixSum ps mask n) :
    (if mask ((n : Int) - 1) = 1 then ps ((n : Int) - 1) + 1 else ps ((n : Int) - 1))
      = (countOnes mask n : Int) := by
  obtain ⟨m, rfl⟩ : ∃ m, n = m + 1 := ⟨n - 1, by omega⟩
  have e : ((m + 1 : Nat) : Int) - 1 = (m : Int) := by push_cast; ring
  rw [e, hps m (Nat.lt_succ_self m),
    exclusivePrefixSum_eq_countOnes mask m (isZeroOneMask_mono hm (Nat.le_succ m))]
  simp only [countOnes]
  split <;> simp

/-- The launcher of the specification writes the exclusive prefix sum. -/
theorem exclusiveScan_kernelLauncher_spec (d_Out mask : Int → Int) (n : Nat) :
    isExclusivePrefixSum (exclusiveScan_kernelLauncher d_Out mask n) mask n := by
  intro i hi
  unfold exclusiveScan_kernelLauncher
  rw [if_pos ⟨by omega, by omega⟩]
  simp

/-- The outcome of the input functor on a run in which every call succeeds. -/
theorem Compute_of_succeeds {α : Type} (K : KernelLaunchers α) (env : Env)
    (param : EncoderInputInitParam α) (henv : env.succeeds) :
    BertTransformerInputOpFunctor.Compute K env param =
      ⟨.OK,
       [.allocate_temp .DT_INT32 (param.batch_size_ * param.from_seq_len_ * 2),
        .launch .exclusiveScan [.temp 0, .param .mask 0]
          [param.batch_size_ * param.from_seq_len_],
        .launch .compressBertInput
          [.param .from_tensor 0, .param .mask 0, .temp 0, .param .to_tensor 0,
           .param .batch_idx 0, .param .word_idx 0]
          [param.batch_size_, param.from_seq_len_, param.head_num_ * param.size_per_head_],
        .cudaMemcpyAsync (.host .valid_word_num)
          (.temp (param.batch_size_ * param.from_seq_len_ - 1)) 4 .cudaMemcpyDeviceToHost,
        .cudaMemcpyAsync (.host .last_mask)
          (.param .mask (param.batch_size_ * param.from_seq_len_ - 1)) 4
          .cudaMemcpyDeviceToHost,
        .cudaStreamSynchronize,
        .cudaMemcpyAsync (.param .valid_word_num 0) (.host .valid_word_num) 4
          .cudaMemcpyHostToDevice],
       K.compressBertInput param.from_tensor param.mask
         (K.exclusiveScan env.temp param.mask (param.batch_size_ * param.from_seq_len_))
         ⟨param.to_tensor, param.batch_idx, param.word_idx⟩
         param.batch_size_ param.from_seq_len_ (param.head_num_ * param.size_per_head_),
       if param.mask (param.batch_size_ * param.from_seq_len_ - 1) = 1 then
         K.exclusiveScan env.temp param.mask (param.batch_size_ * param.from_seq_len_)
           (param.batch_size_ * param.from_seq_len_ - 1) + 1
       else
         K.exclusiveScan env.temp param.mask (param.batch_size_ * param.from_seq_len_)
           (param.batch_size_ * param.from_seq_len_ - 1)⟩ := by
  obtain ⟨hok, hnull⟩ := henv
  simp [BertTransformerInputOpFunctor.Compute, hok, hnull]

/-- On a run in which every call succeeds, the input compactor returns `OK` and the valid
word count is the exclusive prefix sum at `n`, the number of ones of the mask. -/
theorem inputCompactor_valid_word_num {α : Type} (env : Env) (param : EncoderInputInitParam α)
    (hb : 1 ≤ param.batch_size_) (hs : 1 ≤ param.from_seq_len_)
    (hmask : isZeroOneMask param.mask (param.batch_size_ * param.from_seq_len_).toNat)
    (henv : env.succeeds) :
    (inputCompactor env param).status = .OK
    ∧ (inputCompactor env param).valid_word_num
        = exclusivePrefixSum param.mask (param.batch_size_ * param.from_seq_len_).toNat := by
  obtain ⟨hn1, hn⟩ := word_num_toNat _ _ hb hs
  have hps := exclusiveScan_kernelLauncher_spec env.temp param.mask
    (param.batch_size_ * param.from_seq_len_).toNat
  rw [hn] at hps
  have := validWordNum_eq_countOnes param.mask _ _ hn1 hmask hps
  rw [hn] at this
  unfold inputCompactor
  rw [Compute_of_succeeds _ env param henv]
  refine ⟨rfl, ?_⟩
  rw [exclusivePrefixSum_eq_countOnes _ _ hmask]
  exact this

/-- On a run in which every call succeeds, the row `exclusivePrefixSum mask p` of the outputs
of the input compactor holds the coordinates and the contents of the mask-one position `p`. -/
theorem inputCompactor_written {α : Type} (env : Env) (param : EncoderInputInitParam α)
    (hb : 1 ≤ param.batch_size_) (hs : 1 ≤ param.from_seq_len_)
    (hmask : isZeroOneMask param.mask (param.batch_size_ * param.from_seq_len_).toNat)
    (henv : env.succeeds) (p : Nat)
    (hp : p < (param.batch_size_ * param.from_seq_len_).toNat) (hmp : param.mask p = 1) :
    (inputCompactor env param).out.batch_idx (exclusivePrefixSum param.mask p)
        = (p : Int) / param.from_seq_len_
    ∧ (inputCompactor env param).out.word_idx (exclusivePrefixSum param.mask p)
        = (p : Int) % param.from_seq_len_
    ∧ ∀ j : Int, 0 ≤ j → j < param.head_num_ * param.size_per_head_ →
        (inputCompactor env param).out.to_tensor
            (exclusivePrefixSum param.mask p * (param.head_num_ * param.size_per_head_) + j)
          = param.from_tensor ((p : Int) * (param.head_num_ * param.size_per_head_) + j) := by
  obtain ⟨_, hn⟩ := word_num_toNat _ _ hb hs
  have hps := exclusiveScan_kernelLauncher_spec env.temp param.mask
    (param.batch_size_ * param.from_seq_len_).toNat
  rw [hn] at hps
  unfold inputCompactor
  rw [Compute_of_succeeds _ env param henv]
  exact compress_fold_row param.from_tensor param.mask _ param.from_seq_len_ _ _ _ hmask hps
    _ (le_refl _) p hp hmp

/-- Splitting a flattened position into its coordinates. -/
theorem coords_of_position (p : Nat) (b s : Int) (hs : 1 ≤ s) (hp : (p : Int) < b * s) :
    0 ≤ (p : Int) / s ∧ (p : Int) / s < b ∧ 0 ≤ (p : Int) % s ∧ (p : Int) % s < s
    ∧ (p : Int) / s * s + (p : Int) % s = p := by
  have hs0 : 0 < s := by omega
  refine ⟨Int.ediv_nonneg (Int.natCast_nonneg p) hs0.le, Int.ediv_lt_of_lt_mul hs0 hp,
    Int.emod_nonneg _ (by omega), Int.emod_lt_of_pos _ hs0, ?_⟩
  have := Int.ediv_add_emod (p : Int) s
  linarith [mul_comm s ((p : Int) / s)]

/-- On a run in which every call succeeds, every row below the valid word count was written
for exactly one mask-one position. -/
theorem inputCompactor_row {α : Type} (env : Env) (param : EncoderInputInitParam α)
    (hb : 1 ≤ param.batch_size_) (hs : 1 ≤ param.from_seq_len_)
    (hmask : isZeroOneMask param.mask (param.batch_size_ * param.from_seq_len_).toNat)
    (henv : env.succeeds) (r : Int) (hr0 : 0 ≤ r)
    (hr : r < (inputCompactor env param).valid_word_num) :
    ∃ p : Nat, p < (param.batch_size_ * param.from_seq_len_).toNat ∧ param.mask p = 1
      ∧ exclusivePrefixSum param.mask p = r
      ∧ (inputCompactor env param).out.batch_idx r * param.from_seq_len_
          + (inputCompactor env param).out.word_idx r = p
      ∧ (inputCompactor env param).out.batch_idx r = (p : Int) / param.from_seq_len_
      ∧ (inputCompactor env param).out.word_idx r = (p : Int) % param.from_seq_len_ := by
  rw [(inputCompactor_valid_word_num env param hb hs hmask henv).2] at hr
  obtain ⟨p, hp, hmp, hep⟩ := exists_position_of_row param.mask _ hmask r hr0 hr
  obtain ⟨hbi, hwi, _⟩ := inputCompactor_written env param hb hs hmask henv p hp hmp
  obtain ⟨_, hn⟩ := word_num_toNat _ _ hb hs
  have hpl : (p : Int) < param.batch_size_ * param.from_seq_len_ := by omega
  obtain ⟨_, _, _, _, hflat⟩ := coords_of_position p _ _ hs hpl
  rw [hep] at hbi hwi
  exact ⟨p, hp, hmp, hep, by rw [hbi, hwi]; exact hflat, hbi, hwi⟩

/-- Elements have a positive size. -/
theorem sizeofDataType_pos (op : OperationType) : 0 < sizeofDataType op := by
  cases op <;> decide

/-- The zero fill of the output functor reaches every element of the padded output. -/
theorem memsetZero_covers {α : Type} [Zero α] (op : OperationType) (buf : Int → α)
    (tensor_size k : Int) (hk0 : 0 ≤ k) (hk : k < tensor_size) :
    memsetZero (sizeofDataType op) buf (tensor_size * sizeofDataType op) k = 0 := by
  unfold memsetZero
  rw [if_pos]
  exact ⟨hk0, mul_le_mul_of_nonneg_right (by omega) (sizeofDataType_pos op).le⟩

/-- The outcome of the output restorer on a run in which every call succeeds. -/
theorem outputRestorer_of_succeeds {α : Type} [Zero α] (env : Env) (op : OperationType)
    (param : EncoderOutputInitParam α) (hok : ∀ i, env.ok i = true) :
    (outputRestorer env op param).status = .OK
    ∧ (outputRestorer env op param).to_tensor =
      restoreBertOutput_kernelLauncher
        (memsetZero (sizeofDataType op) param.to_tensor
          (param.batch_size_ * param.head_num_ * param.from_seq_len_ * param.size_per_head_
            * sizeofDataType op))
        param.from_tensor param.batch_idx param.word_idx param.valid_word_num
        param.from_seq_len_ (param.head_num_ * param.size_per_head_) := by
  simp [outputRestorer, BertTransformerOutputOpFunctor.Compute, hok, specKernels]

/-- C8 (padding invariance): when two padded batches agree on every row whose mask entry is
one, the input compactor leaves the same status, calls, compact tensor, index arrays and
valid word count for both (also on a run in which a call fails), and therefore the encoder
layer, which is given only those outputs, the weights and its workspace, returns the same
status and the same `transformer_out`, whatever the device does for each call. -/
theorem C8_padding_invariance {α : Type} (env : Env) (param : EncoderInputInitParam α)
    (X' : Int → α)
    (hagree : ∀ i : Nat, i < (param.batch_size_ * param.from_seq_len_).toNat →
      param.mask i = 1 → ∀ j : Int, 0 ≤ j → j < param.head_num_ * param.size_per_head_ →
      param.from_tensor ((i : Int) * (param.head_num_ * param.size_per_head_) + j)
        = X' ((i : Int) * (param.head_num_ * param.size_per_head_) + j)) :
    inputCompactor env { param with from_tensor := X' } = inputCompactor env param
    ∧ ∀ (device : Cmd → LayerState α → LayerState α) (env₂ : Env) (op : OperationType)
        (t : TransformerParam) (weights : ParamBuf → Int → α) (ws : Int → α),
        runEncoderLayer device env₂ op t weights ws
            (inputCompactor env { param with from_tensor := X' })
          = runEncoderLayer device env₂ op t weights ws (inputCompactor env param) := by
  have key : inputCompactor env { param with from_tensor := X' } = inputCompactor env param := by
    have hc := fun ps out => compress_fold_congr param.from_tensor X' param.mask ps
      param.from_seq_len_ (param.head_num_ * param.size_per_head_) out _ hagree _ (le_refl _)
    simp only [inputCompactor, BertTransformerInputOpFunctor.Compute, specKernels,
      compressBertInput_kernelLauncher, hc]
  exact ⟨key, fun device env₂ op t weights ws => by rw [key]⟩

/-- C8 on the end-to-end scenario with the padding element at offset 16 (position 2)
changed: the input compactor leaves the same outcome. -/
theorem C8_padding_invariance_witness :
    inputCompactor Env.allOk
        { exampleInput with from_tensor := fun k => if k = 16 then 999 else k + 100 }
      = inputCompactor Env.allOk exampleInput :=
  (C8_padding_invariance Env.allOk exampleInput (fun k => if k = 16 then 999 else k + 100)
    (by
      intro i hi hm j hj0 hj
      have hi2 : i ≠ 2 := by
        rintro rfl
        revert hm
        decide
      have hne : ¬ ((i : Int) * (exampleInput.head_num_ * exampleInput.size_per_head_) + j = 16) := by
        have : exampleInput.head_num_ * exampleInput.size_per_head_ = 8 := by decide
        rw [this] at hj ⊢
        omega
      simp only [hne, if_false]
      rfl)).1

/-- The two exceptions of `std::stoi`. -/
theorem stoi_error_kind (f : List Char) (e : Exception) (h : stoi f = .error e) :
    e = .invalid_argument ∨ e = .out_of_range := by
  unfold stoi at h
  split at h
  · left; cases h; rfl
  · split at h
    · right; cases h; rfl
    · cases h

/-- C7, amended: when `std::stoi` fails on one of the first three fields of the configuration
string (a field that exists; it is empty, has no decimal digit after leading white space and
an optional sign, or its value is outside `int`), the exception of `std::stoi` leaves
`compressBertInput` before any call is issued: no kernel is launched and the outputs keep
their previous contents. -/
theorem C7_parse_failure_launches_nothing {α : Type} (K : KernelLaunchers α) (env : Env)
    (cfg : List Char) (buffers : CustomCallBuffers α) (k : Nat) (f : List Char)
    (hk : k < 3) (hf : (split cfg ' ').get? k = some f) (hbad : (stoi f).isOk = false) :
    ∃ e, (e = .invalid_argument ∨ e = .out_of_range)
      ∧ compressBertInput K env cfg buffers
        = some ⟨.error e, [], ⟨buffers.to_tensor, buffers.batch_idx, buffers.word_idx⟩,
            buffers.valid_word_num⟩ := by
  have hfe : ∃ e, stoi f = .error e := by
    cases hs : stoi f with
    | error e => exact ⟨e, rfl⟩
    | ok v => rw [hs] at hbad; simp [Except.isOk, Except.toBool] at hbad
  obtain ⟨e, he⟩ := hfe
  have hkind := stoi_error_kind f e he
  unfold compressBertInput
  simp only
  rcases hl : split cfg ' ' with _ | ⟨g0, _ | ⟨g1, _ | ⟨g2, rest⟩⟩⟩
  · rw [hl] at hf; simp at hf
  · rw [hl] at hf
    have : k = 0 := by
      rcases k with _ | k
      · rfl
      · simp at hf
    subst this
    simp only [List.get?_cons_zero, Option.some.injEq] at hf
    subst hf
    simp [he]
    exact hkind
  · rw [hl] at hf
    cases h0 : stoi g0 with
    | error e0 => simp [h0]; exact stoi_error_kind g0 e0 h0
    | ok v0 =>
      have : k = 1 := by
        rcases k with _ | _ | k
        · simp at hf; subst hf; rw [h0] at he; cases he
        · rfl
        · simp at hf
      subst this
      simp at hf
      subst hf
      simp [h0, he]
      exact hkind
  · rw [hl] at hf
    cases h0 : stoi g0 with
    | error e0 => simp [h0]; exact stoi_error_kind g0 e0 h0
    | ok v0 =>
      cases h1 : stoi g1 with
      | error e1 => simp [h0, h1]; exact stoi_error_kind g1 e1 h1
      | ok v1 =>
        cases h2 : stoi g2 with
        | error e2 => simp [h0, h1, h2]; exact stoi_error_kind g2 e2 h2
        | ok v2 =>
          exfalso
          rcases k with _ | _ | _ | k
          · simp at hf; subst hf; rw [h0] at he; cases he
          · simp at hf; subst hf; rw [h1] at he; cases he
          · simp at hf; subst hf; rw [h2] at he; cases he
          · omega

/-- The amended C7 at the strings `2 x 8` (a field without digits) and `2  8` (an empty
field): `std::invalid_argument` leaves the call, nothing is issued, the outputs keep their
previous contents. -/
theorem C7_parse_failure_launches_nothing_witness :
    (∃ e, (e = .invalid_argument ∨ e = .out_of_range)
      ∧ compressBertInput (specKernels Int) Env.allOk "2 x 8".toList exampleBuffers
        = some ⟨.error e, [], ⟨exampleBuffers.to_tensor, exampleBuffers.batch_idx,
            exampleBuffers.word_idx⟩, exampleBuffers.valid_word_num⟩)
    ∧ (split "2  8".toList ' ').get? 1 = some [] ∧ (stoi []).isOk = false :=
  ⟨C7_parse_failure_launches_nothing (specKernels Int) Env.allOk "2 x 8".toList exampleBuffers
    1 "x".toList (by decide) (by decide) (by decide), by decide, by decide⟩

/-- C7 as stated fails: `2 4 8x` and `2 4 8 16` are not three space-separated decimal
integers, yet `std::stoi` reads the leading `8` of `8x`, the fourth field is never looked at,
and the call launches the kernel with `(2, 4, 8)`, writes the outputs (`batch_idx[0]` changes
from `-1` to `0`, the valid word count becomes 5) and returns normally. -/
theorem C7_counterexample_malformed_accepted :
    isThreeDecimalIntegers "2 4 8x".toList = false
    ∧ (compressBertInput (specKernels Int) Env.allOk "2 4 8x".toList exampleBuffers).map
        (fun o => (o.result.isOk, o.trace.head?, o.out.batch_idx 0, o.valid_word_num))
      = some (true,
          some (.launch .compressBertInput
            [.param .from_tensor 0, .param .mask 0, .param .prefix_sum 0, .param .to_tensor 0,
             .param .batch_idx 0, .param .word_idx 0] [2, 4, 8]),
          0, 5)
    ∧ exampleBuffers.batch_idx 0 = -1
    ∧ isThreeDecimalIntegers "2 4 8 16".toList = false
    ∧ (compressBertInput (specKernels Int) Env.allOk "2 4 8 16".toList exampleBuffers).map
        (fun o => (o.result.isOk, o.trace.length, o.valid_word_num))
      = some (true, 5, 5) := by
  decide

/-- C4 (evaluated on the code): the status of `allocate_temp`, the call at position 1 of the
encoder layer, is stored and never tested.  When that call fails and every other call
succeeds, `Compute` returns `OK` and issues every call of the layer, among them the fifteen
matmuls, zero fills and kernel launches.  The input functor, in contrast, tests the status:
with a failing allocation it returns `Internal` and issues nothing after the allocation. -/
theorem C4_allocation_failure_not_reported (op : OperationType) (t : TransformerParam)
    (valid_word_num : Int) :
    (BertTransformerOpFunctor.steps op t valid_word_num).get? 1
      = some (.call (.allocate_temp .DT_UINT8 (buf_size t)))
    ∧ (Env.failsAt 1).ok 1 = false
    ∧ (BertTransformerOpFunctor.Compute (Env.failsAt 1) op t valid_word_num).2 = .OK
    ∧ (BertTransformerOpFunctor.Compute (Env.failsAt 1) op t valid_word_num).1
        = (BertTransformerOpFunctor.steps op t valid_word_num).map Step.cmd
    ∧ ((BertTransformerOpFunctor.Compute (Env.failsAt 1) op t valid_word_num).1.filter
        Cmd.isCompute).length = 15
    ∧ ∀ (K : KernelLaunchers Int) (param : EncoderInputInitParam Int),
        (BertTransformerInputOpFunctor.Compute K (Env.failsAt 0) param).status
          = .Internal "TF error: context->allocate_temp failed"
        ∧ (BertTransformerInputOpFunctor.Compute K (Env.failsAt 0) param).trace
          = [.allocate_temp .DT_INT32 (param.batch_size_ * param.from_seq_len_ * 2)] :=
  ⟨rfl, rfl, rfl, rfl, rfl, fun _ _ => ⟨rfl, rfl⟩⟩

/-- C9 (evaluated on the code): no run of the encoder layer and no run of the output
restorer issues a stream barrier.  In the encoder layer the readback of the valid word count
is the third call and the first QKV matmul, whose row count `m` is the value read, is the
fourth; in the output restorer the readback is followed by the zero fill and the restore
launch, which takes the value.  The input functor, in contrast, issues exactly one barrier,
after its two readbacks and before the host uses the values. -/
theorem C9_no_barrier_after_readback (env : Env) (op : OperationType) (t : TransformerParam)
    (valid_word_num : Int) (K : KernelLaunchers Int) (param : EncoderOutputInitParam Int)
    (param_in : EncoderInputInitParam Int) :
    Cmd.cudaStreamSynchronize ∉ (BertTransformerOpFunctor.Compute env op t valid_word_num).1
    ∧ Cmd.cudaStreamSynchronize ∉ (BertTransformerOutputOpFunctor.Compute K env op param).trace
    ∧ ((BertTransformerOpFunctor.Compute Env.allOk op t valid_word_num).1.filter
        Cmd.isBarrier).length = 0
    ∧ (BertTransformerOpFunctor.Compute Env.allOk op t valid_word_num).1.take 4
        = [.cublasSetStream, .allocate_temp .DT_UINT8 (buf_size t), readbackValidWordNum,
           .cublasGemmEx .CUBLAS_OP_N .CUBLAS_OP_N (t.head_num_ * t.size_per_head_)
             valid_word_num (t.head_num_ * t.size_per_head_)
             (.param .attr_kernel_Q 0) (t.head_num_ * t.size_per_head_)
             (.param .from_tensor 0) (t.head_num_ * t.size_per_head_)
             (.buf (query_buf_ t)) (t.head_num_ * t.size_per_head_)
             op (BertTransformerOpFunctor.cublasAlgo op 0)]
    ∧ (BertTransformerOutputOpFunctor.Compute K Env.allOk op param).trace
        = [readbackValidWordNum,
           .cudaMemsetAsync (.param .to_tensor 0) 0
             (param.batch_size_ * param.head_num_ * param.from_seq_len_ * param.size_per_head_
               * sizeofDataType op),
           .launch .restoreBertOutput
             [.param .to_tensor 0, .param .from_tensor 0, .param .batch_idx 0,
              .param .word_idx 0]
             [param.valid_word_num, param.from_seq_len_,
              param.head_num_ * param.size_per_head_]]
    ∧ (BertTransformerInputOpFunctor.Compute K Env.allOk param_in).trace.map Cmd.isBarrier
        = [false, false, false, false, false, true, false] := by
  refine ⟨?_, ?_, rfl, rfl, rfl, rfl⟩
  · intro h
    have := runSteps_trace_mem env _ 0 _ h
    simp [BertTransformerOpFunctor.steps, Step.cmd, readbackValidWordNum] at this
  · unfold BertTransformerOutputOpFunctor.Compute
    split
    · simp [readbackValidWordNum]
    · split <;> simp [readbackValidWordNum]

end EffectiveTransformer
